import Mathlib

/-!
Shallow embedding of the squishy SquashFS access library
(src/squishy/src/lib.rs) and proofs about its specification.

Bytes are modelled as `Nat`, paths as `String` (Rust `PathBuf` equality on
the paths appearing here coincides with string equality), and the seekable
input stream as an explicit record carrying the byte data, the read
position, and flags describing where the underlying I/O can fail.
-/

namespace Squishy

/-- The library's error enum.  The variants `noSquashFsFound`,
`invalidSquashFS`, `fileNotFound` and `symlinkError` are the ones
constructed in src/squishy/src/lib.rs.  `ioError` models the variant the
`?` conversions on `std::io::Error` produce (`File::create(dest)?`,
`file.stream_position()?`, `file.rewind()?`); its definition lives in the
crate's `error` module, which is not under src/, so that variant is
modelled from the spec: the spec's error taxonomy lists IOError as
"underlying stream/file operation failure (open, read, write) unrelated to
format validity". -/
inductive SquishyError where
  | noSquashFsFound
  | invalidSquashFS (msg : String)
  | fileNotFound (path : String)
  | symlinkError (msg : String)
  | ioError
deriving DecidableEq, Repr

/-- The 4-byte SquashFS magic for the `le_v4_0` kind used by the source:
`Kind::from_target("le_v4_0")` has magic `b"hsqs"` = `[0x68, 0x73, 0x71, 0x73]`. -/
def magic : List Nat := [104, 115, 113, 115]

/-- A seekable byte stream as seen by `find_squashfs_offset`:
`data` are the container bytes, `pos` the current read position.
`readErrAt = some k` means `read_exact` fails with an I/O error once the
position has reached `k`; `posErr` means `stream_position()` / `rewind()`
fail with an I/O error.  The infallible stream is `readErrAt = none`,
`posErr = false`. -/
structure ScanStream where
  data : List Nat
  readErrAt : Option Nat
  posErr : Bool
  pos : Nat
deriving DecidableEq, Repr

/-- Whether `read_exact` at the current position fails with an I/O error
(as opposed to succeeding or hitting end-of-stream). -/
def readErrors (s : ScanStream) : Bool :=
  match s.readErrAt with
  | none => false
  | some k => decide (k ≤ s.pos)

/-- Embedding of `SquashFS::find_squashfs_offset`.  The Rust loop reads
contiguous 4-byte chunks with `read_exact` (advancing 4 bytes per
iteration, so only 4-aligned positions are compared), and:
* a failed `read_exact` (I/O error or end of stream) makes
  `.is_ok()` false, exits the loop, and returns `NoSquashFsFound`;
  at end of stream `read_exact` consumes the remaining bytes;
* on a chunk equal to the magic, `stream_position()?` (position is then
  chunk start + 4, so `found = pos`) and `rewind()?` run — if either
  fails the I/O error propagates via `?` — and `found` is returned with
  the stream rewound to 0.
Returns the `Result` together with the final stream state. -/
def find_squashfs_offset (s : ScanStream) : Except SquishyError Nat × ScanStream :=
  if readErrors s then
    (Except.error SquishyError.noSquashFsFound, s)
  else if _h : s.pos + 4 ≤ s.data.length then
    if (s.data.drop s.pos).take 4 = magic then
      if s.posErr then
        (Except.error SquishyError.ioError, { s with pos := s.pos + 4 })
      else
        (Except.ok s.pos, { s with pos := 0 })
    else
      find_squashfs_offset { s with pos := s.pos + 4 }
  else
    (Except.error SquishyError.noSquashFsFound, { s with pos := s.data.length })
termination_by s.data.length - s.pos
decreasing_by omega

/-- The offset-locating phase of `SquashFS::new`: the locator's result is
passed through `map_err(|_| SquishyError::NoSquashFsFound)`, discarding
whatever error the locator produced.  (The subsequent
`FilesystemReader::from_reader_with_offset` call belongs to the external
collaborator and is outside this model.) -/
def new_offset (s : ScanStream) : Except SquishyError Nat :=
  match (find_squashfs_offset s).1 with
  | Except.error _ => Except.error SquishyError.noSquashFsFound
  | Except.ok o => Except.ok o

/-- Outcome of a Rust computation that may panic: `File::open(path).unwrap()`
panics when the open fails, which is a distinct observable from any
returned `Result` value. -/
inductive OpenOutcome where
  | panicked
  | result (r : Except SquishyError Nat)

/-- The host filesystem seen by `File::open`: an association from paths to
file bytes; a missing path is a path that cannot be opened. -/
def hostLookup (host : List (String × List Nat)) (p : String) : Option (List Nat) :=
  match host with
  | [] => none
  | (q, bytes) :: rest => if q = p then some bytes else hostLookup rest p

/-- Embedding of `SquashFS::from_path`: `File::open(path).unwrap()` — the
open is unconditionally unwrapped, so a failed open panics; on success a
`BufReader` over the file's bytes is handed to `SquashFS::new` (modelled
by its offset-locating phase `new_offset`). -/
def from_path (host : List (String × List Nat)) (path : String) : OpenOutcome :=
  match hostLookup host path with
  | none => OpenOutcome.panicked
  | some data => OpenOutcome.result (new_offset (ScanStream.mk data none false 0))

/-- One item produced by the byte reader of a file node
(Rust `io::Result<u8>` from the `Bytes` iterator): either a byte or an
I/O error. -/
inductive ByteItem where
  | ok (b : Nat)
  | ioerr
deriving DecidableEq, Repr

/-- The external reader's node payload (`backhand::InnerNode`), restricted
to what lib.rs consumes: a file's `basic.file_size` and its byte stream, a
directory, a symlink's stored `link`, or any other node kind. -/
inductive InnerNode where
  | file (fileSize : Nat) (stream : List ByteItem)
  | dir
  | symlink (link : String)
  | other
deriving DecidableEq, Repr

/-- One decoded node: its `fullpath` and inner payload. -/
structure Node where
  fullpath : String
  inner : InnerNode
deriving DecidableEq, Repr

/-- The external `FilesystemReader`: `files()` yields the decoded nodes in
order. -/
structure FilesystemReader where
  files : List Node
deriving DecidableEq, Repr

/-- The `EntryKind` enum of lib.rs. -/
inductive EntryKind where
  | file
  | directory
  | symlink (target : String)
  | unknown
deriving DecidableEq, Repr

/-- The `SquashFSEntry` struct of lib.rs: path, size and kind of one entry. -/
structure SquashFSEntry where
  path : String
  size : Nat
  kind : EntryKind
deriving DecidableEq, Repr

/-- The per-node projection performed inside `SquashFS::entries`:
`size` is `file.basic.file_size` for file nodes and `0` otherwise; file
nodes map to `File`, directories to `Directory`, symlinks to
`Symlink(PathBuf::from(format!("/{}", symlink.link.display())))` — a `/`
prepended verbatim to the stored link — and anything else to `Unknown`;
the entry's path is the node's `fullpath`. -/
def projectNode (node : Node) : SquashFSEntry :=
  { path := node.fullpath
    size := match node.inner with
      | InnerNode.file sz _ => sz
      | _ => 0
    kind := match node.inner with
      | InnerNode.file _ _ => EntryKind.file
      | InnerNode.dir => EntryKind.directory
      | InnerNode.symlink link => EntryKind.symlink ("/" ++ link)
      | InnerNode.other => EntryKind.unknown }

/-- Embedding of `SquashFS::entries`: maps `projectNode` over
`reader.files()`. -/
def entries (fs : FilesystemReader) : List SquashFSEntry :=
  fs.files.map projectNode

/-- Embedding of `SquashFS::find_entries`: filters `entries()` by a
predicate on the entry's path. -/
def find_entries (fs : FilesystemReader) (predicate : String → Bool) : List SquashFSEntry :=
  (entries fs).filter (fun entry => predicate entry.path)

/-- The `while let Some(Ok(byte))` drain loop of `read_file`: collects
bytes until the stream ends or yields an error item; an error item stops
the loop (the error itself is discarded). -/
def drainBytes : List ByteItem → List Nat
  | [] => []
  | ByteItem.ok b :: rest => b :: drainBytes rest
  | ByteItem.ioerr :: _ => []

/-- The node-scanning loop of `SquashFS::read_file`: the first node whose
`fullpath` equals the queried path and whose payload is a file yields
`Ok` of the drained bytes (a path match with a non-file payload falls
through and scanning continues); if no node qualifies the loop ends with
`FileNotFound` carrying the path. -/
def read_file_loop : List Node → String → Except SquishyError (List Nat)
  | [], path => Except.error (SquishyError.fileNotFound path)
  | node :: rest, path =>
    if node.fullpath = path then
      match node.inner with
      | InnerNode.file _ stream => Except.ok (drainBytes stream)
      | _ => read_file_loop rest path
    else
      read_file_loop rest path

/-- Embedding of `SquashFS::read_file`. -/
def read_file (fs : FilesystemReader) (path : String) : Except SquishyError (List Nat) :=
  read_file_loop fs.files path

/-- The destination side seen by `write_file`: the host files (path to
bytes), plus the paths at which `File::create` respectively
`write_all` fail with an I/O error. -/
structure DestWorld where
  files : List (String × List Nat)
  createFail : List String
  writeFail : List String

/-- Store `bytes` at `p`, replacing any previous contents. -/
def setHostFile (files : List (String × List Nat)) (p : String) (bytes : List Nat) :
    List (String × List Nat) :=
  (p, bytes) :: files.filter (fun x => x.1 ≠ p)

/-- `File::create(dest)?`: creates/truncates the destination, or fails
with an I/O error that the `?` converts into the error enum's I/O variant. -/
def fileCreate (w : DestWorld) (p : String) : Except SquishyError DestWorld :=
  if p ∈ w.createFail then Except.error SquishyError.ioError
  else Except.ok { w with files := setHostFile w.files p [] }

/-- The capacity of the in-memory buffer allocated by `BufWriter::new` in
the Rust standard library (8 KiB). -/
def bufWriterCapacity : Nat := 8192

/-- `writer.write_all(&contents)?` on a `BufWriter` over the freshly
created destination (buffer empty): contents of at least the buffer
capacity bypass the buffer and are written straight to the destination
file, so a failing disk write surfaces here and the `?` propagates it;
smaller contents only fill the in-memory buffer, which cannot fail.
Returns the world together with whether the bytes are still sitting in
the buffer. -/
def writeAll (w : DestWorld) (p : String) (contents : List Nat) :
    Except SquishyError (DestWorld × Bool) :=
  if bufWriterCapacity ≤ contents.length then
    if p ∈ w.writeFail then Except.error SquishyError.ioError
    else Except.ok ({ w with files := setHostFile w.files p contents }, false)
  else
    Except.ok (w, true)

/-- The implicit drop of the `BufWriter` at the end of `write_file`: any
still-buffered bytes are flushed to the destination file, and a failing
flush is ignored — the destination is then left as created (truncated)
while the function's return value is unaffected. -/
def dropFlush (w : DestWorld) (p : String) (contents : List Nat) (buffered : Bool) :
    DestWorld :=
  if buffered then
    if p ∈ w.writeFail then w
    else { w with files := setHostFile w.files p contents }
  else w

/-- Embedding of `SquashFS::write_file`: `read_file(source)?`, then
`File::create(dest)?`, then `writer.write_all(&contents)?` on a
`BufWriter` over the destination, then `Ok(())` — at which point the
writer goes out of scope and its drop flushes the buffer, ignoring
errors.  Returns the destination world on success. -/
def write_file (fs : FilesystemReader) (w : DestWorld) (source dest : String) :
    Except SquishyError DestWorld :=
  match read_file fs source with
  | Except.error e => Except.error e
  | Except.ok contents =>
    match fileCreate w dest with
    | Except.error e => Except.error e
    | Except.ok w1 =>
      match writeAll w1 dest contents with
      | Except.error e => Except.error e
      | Except.ok (w2, buffered) => Except.ok (dropFlush w2 dest contents buffered)

/-- The set of paths of the catalog's entries, used as the termination
measure of the symlink chain walk. -/
def pathsFinset (fs : FilesystemReader) : Finset String :=
  ((entries fs).map SquashFSEntry.path).toFinset

lemma head?_eq_some_mem {α : Type} {l : List α} {a : α} (h : l.head? = some a) : a ∈ l := by
  cases l with
  | nil => simp at h
  | cons x xs =>
    simp only [List.head?] at h
    injection h with h
    exact h ▸ List.mem_cons_self x xs

lemma find_entries_head?_path {fs : FilesystemReader} {target : String} {e : SquashFSEntry}
    (h : (find_entries fs (fun p => p == target)).head? = some e) :
    e ∈ entries fs ∧ e.path = target := by
  have hm := head?_eq_some_mem h
  rw [find_entries, List.mem_filter] at hm
  exact ⟨hm.1, by simpa using hm.2⟩

lemma target_mem_pathsFinset {fs : FilesystemReader} {target : String} {e : SquashFSEntry}
    (h : (find_entries fs (fun p => p == target)).head? = some e) :
    target ∈ pathsFinset fs := by
  rcases find_entries_head?_path h with ⟨hmem, hpath⟩
  rw [pathsFinset, List.mem_toFinset]
  exact List.mem_map.mpr ⟨e, hmem, hpath⟩

lemma sdiff_insert_card_lt {s t : Finset String} {a : String} (ha : a ∈ s) (hna : a ∉ t) :
    (s \ insert a t).card < (s \ t).card := by
  have hsub : s \ insert a t ⊆ (s \ t).erase a := by
    intro x hx
    rcases Finset.mem_sdiff.mp hx with ⟨hxs, hxt⟩
    have hxa : x ≠ a := fun hh => hxt (hh ▸ Finset.mem_insert_self a t)
    exact Finset.mem_erase.mpr
      ⟨hxa, Finset.mem_sdiff.mpr ⟨hxs, fun hh => hxt (Finset.mem_insert_of_mem hh)⟩⟩
  have hmem : a ∈ s \ t := Finset.mem_sdiff.mpr ⟨ha, hna⟩
  exact lt_of_le_of_lt (Finset.card_le_card hsub) (Finset.card_erase_lt_of_mem hmem)

/-- The measure of the chain walk strictly decreases when the walk inserts
a found target into the visited set and recurses. -/
lemma follow_measure_lt {fs : FilesystemReader} {target : String} {visited : List String}
    {e : SquashFSEntry} (hv : target ∉ visited)
    (hfind : (find_entries fs (fun p => p == target)).head? = some e) :
    (pathsFinset fs \ (target :: visited).toFinset).card
      < (pathsFinset fs \ visited.toFinset).card := by
  rw [List.toFinset_cons]
  exact sdiff_insert_card_lt (target_mem_pathsFinset hfind)
    (fun hh => hv (List.mem_toFinset.mp hh))

/-- Embedding of `SquashFS::follow_symlink`: if inserting `target` into
the visited set reports it already present, fail with the cyclic-symlink
error; otherwise look the target up via
`find_entries(|p| p == target_path).next()`; no match is the dangling case
(`Ok(None)`); a symlink match recurses on its target with the grown
visited set; any other match is the resolved entry. -/
def follow_symlink (fs : FilesystemReader) (target : String) (visited : List String) :
    Except SquishyError (Option SquashFSEntry) :=
  if hv : target ∈ visited then
    Except.error (SquishyError.symlinkError "Cyclic symlink detected")
  else
    match hfind : (find_entries fs (fun p => p == target)).head? with
    | none => Except.ok none
    | some e =>
      match e.kind with
      | EntryKind.symlink next => follow_symlink fs next (target :: visited)
      | _ => Except.ok (some e)
termination_by (pathsFinset fs \ visited.toFinset).card
decreasing_by exact follow_measure_lt hv hfind

/-- Embedding of `SquashFS::resolve_symlink`: a non-symlink entry resolves
to `Ok(None)`; a symlink entry seeds the visited set with the entry's own
path and starts the chain walk at the entry's target. -/
def resolve_symlink (fs : FilesystemReader) (entry : SquashFSEntry) :
    Except SquishyError (Option SquashFSEntry) :=
  match entry.kind with
  | EntryKind.symlink target => follow_symlink fs target [entry.path]
  | _ => Except.ok none

/-- Step-count instrumentation of `follow_symlink`: the same walk with an
explicit budget of recursive steps; `none` means the budget was exhausted.
Used to state that the visited set bounds the recursion depth. -/
def followSymlinkFuel (fs : FilesystemReader) :
    Nat → String → List String → Option (Except SquishyError (Option SquashFSEntry))
  | 0, _, _ => none
  | Nat.succ fuel, target, visited =>
    if target ∈ visited then
      some (Except.error (SquishyError.symlinkError "Cyclic symlink detected"))
    else
      match (find_entries fs (fun p => p == target)).head? with
      | none => some (Except.ok none)
      | some e =>
        match e.kind with
        | EntryKind.symlink next => followSymlinkFuel fs fuel next (target :: visited)
        | _ => some (Except.ok (some e))

/-- Unfolding equation for `follow_symlink` in plain (non-dependent)
if/match form. -/
lemma follow_symlink_eq (fs : FilesystemReader) (target : String) (visited : List String) :
    follow_symlink fs target visited =
      if target ∈ visited then
        Except.error (SquishyError.symlinkError "Cyclic symlink detected")
      else
        match (find_entries fs (fun p => p == target)).head? with
        | none => Except.ok none
        | some e =>
          match e.kind with
          | EntryKind.symlink next => follow_symlink fs next (target :: visited)
          | _ => Except.ok (some e) := by
  rw [follow_symlink]
  by_cases hv : target ∈ visited
  · simp [hv]
  · simp only [hv, dite_false, if_neg hv]
    cases hfind : (find_entries fs (fun p => p == target)).head? with
    | none => rfl
    | some e => cases e.kind <;> rfl

/-- Exhausting the 4-byte-stride scan: if no 4-aligned chunk from `pos`
onward equals the magic, the scan ends with `NoSquashFsFound` and the
stream consumed to its end. -/
lemma scan_no_aligned (data : List Nat) (pe : Bool) :
    ∀ (n pos : Nat), data.length - pos ≤ n →
      (∀ q, pos ≤ q → (q - pos) % 4 = 0 → q < data.length → (data.drop q).take 4 ≠ magic) →
      find_squashfs_offset (ScanStream.mk data none pe pos)
        = (Except.error SquishyError.noSquashFsFound,
           ScanStream.mk data none pe data.length) := by
  intro n
  induction n with
  | zero =>
    intro pos hle _hq
    rw [find_squashfs_offset.eq_def]
    have h4 : ¬ (pos + 4 ≤ data.length) := by omega
    simp [readErrors, h4]
  | succ n ih =>
    intro pos hle hq
    rw [find_squashfs_offset.eq_def]
    by_cases h4 : pos + 4 ≤ data.length
    · have hchunk : (data.drop pos).take 4 ≠ magic :=
        hq pos le_rfl (by simp) (by omega)
      simp only [readErrors, Bool.false_eq_true, if_false, h4, dite_true]
      simp only [h4, dite_true, if_neg hchunk]
      apply ih (pos + 4) (by omega)
      intro q hq4 hmod hlt
      exact hq q (by omega) (by omega) hlt
    · simp [readErrors, h4]

/-- C1: the spec requires the locator to find the magic at every byte
offset k, including non-multiples of 4, returning k with the stream
rewound to 0.  The code scans in 4-byte strides, so it misses unaligned
occurrences: on the 5-byte container `[0x00] ++ magic` the magic first
appears at offset 1, yet `find_squashfs_offset` returns `NoSquashFsFound`
with the stream consumed to its end instead of returning 1. -/
theorem find_squashfs_offset_misses_unaligned_magic :
    (([0, 104, 115, 113, 115] : List Nat).drop 1).take 4 = magic ∧
    find_squashfs_offset (ScanStream.mk [0, 104, 115, 113, 115] none false 0)
      = (Except.error SquishyError.noSquashFsFound,
         ScanStream.mk [0, 104, 115, 113, 115] none false 5) := by
  constructor
  · rfl
  · simp [find_squashfs_offset.eq_def, readErrors, magic]

/-- C2: the spec requires the path-based constructor to surface a failed
file open as an IOError result value, never swallowing it.  The code runs
`File::open(path).unwrap()`, so opening a path that cannot be opened
panics instead of returning any error value. -/
theorem from_path_panics_on_missing_file :
    from_path [] "/no/such/file" = OpenOutcome.panicked ∧
    ∀ r, OpenOutcome.panicked ≠ OpenOutcome.result r := by
  exact ⟨rfl, fun r h => OpenOutcome.noConfusion h⟩

/-- C9: `SquashFS::new` passes the locator result through
`map_err(|_| SquishyError::NoSquashFsFound)`, so a scan-phase I/O error
(for example a failing `stream_position`) surfaces as `NoSquashFsFound`,
indistinguishable from an input that lacks the signature. -/
theorem new_offset_collapses_scan_io_error :
    ∀ s : ScanStream,
      (find_squashfs_offset s).1 = Except.error SquishyError.ioError →
      new_offset s = Except.error SquishyError.noSquashFsFound := by
  intro s h
  unfold new_offset
  rw [h]

/-- Witness for C9: a container starting with the magic whose
`stream_position` fails produces an I/O error in the locator, which
`new` reports as `NoSquashFsFound`. -/
theorem new_offset_collapses_scan_io_error_witness :
    (find_squashfs_offset (ScanStream.mk [104, 115, 113, 115] none true 0)).1
        = Except.error SquishyError.ioError ∧
    new_offset (ScanStream.mk [104, 115, 113, 115] none true 0)
        = Except.error SquishyError.noSquashFsFound := by
  have h : (find_squashfs_offset (ScanStream.mk [104, 115, 113, 115] none true 0)).1
      = Except.error SquishyError.ioError := by
    simp [find_squashfs_offset.eq_def, readErrors, magic]
  exact ⟨h, new_offset_collapses_scan_io_error _ h⟩

/-- C10: when the scan exhausts the stream without a match (no 4-aligned
chunk equals the magic), `find_squashfs_offset` returns only
`NoSquashFsFound` and leaves the read position where the scan stopped —
at the end of the input — rather than rewinding it to 0; the rewind
happens only on the success path. -/
theorem find_squashfs_offset_no_match_no_rewind :
    ∀ (data : List Nat) (pe : Bool),
      (∀ q, q < data.length → q % 4 = 0 → (data.drop q).take 4 ≠ magic) →
      find_squashfs_offset (ScanStream.mk data none pe 0)
        = (Except.error SquishyError.noSquashFsFound,
           ScanStream.mk data none pe data.length) := by
  intro data pe h
  apply scan_no_aligned data pe data.length 0 (by omega)
  intro q _hq0 hmod hlt
  exact h q hlt (by omega)

/-- Witness for C10: a 5-byte container without the magic leaves the
stream at position 5 and reports `NoSquashFsFound`. -/
theorem find_squashfs_offset_no_match_no_rewind_witness :
    (∀ q, q < ([1, 2, 3, 4, 5] : List Nat).length → q % 4 = 0 →
      (([1, 2, 3, 4, 5] : List Nat).drop q).take 4 ≠ magic) ∧
    find_squashfs_offset (ScanStream.mk [1, 2, 3, 4, 5] none false 0)
      = (Except.error SquishyError.noSquashFsFound,
         ScanStream.mk [1, 2, 3, 4, 5] none false 5) := by
  refine ⟨by decide, ?_⟩
  exact find_squashfs_offset_no_match_no_rewind [1, 2, 3, 4, 5] false (by decide)

/-- Whether a node's payload is a file (the pattern `read_file` matches
before returning contents). -/
def InnerNode.isFile : InnerNode → Bool
  | InnerNode.file _ _ => true
  | _ => false

/-- C3 counterexample: the spec says any failure while reading the node's
byte stream is returned to the caller and the buffer has the node's
reported size.  The `while let Some(Ok(byte))` loop stops at the first
error item and returns the bytes read so far as `Ok`: on a file of
reported size 3 whose stream yields `[Ok 104, Err, Ok 105]`, `read_file`
returns `Ok [104]` — a success of length 1, not an error. -/
theorem read_file_swallows_stream_error :
    read_file (FilesystemReader.mk
        [Node.mk "/f" (InnerNode.file 3 [ByteItem.ok 104, ByteItem.ioerr, ByteItem.ok 105])])
        "/f"
      = Except.ok [104] ∧
    ([104] : List Nat).length ≠ 3 := by
  exact ⟨rfl, by decide⟩

/-- C3 amended: `read_file` on the first file-kind node matching the path
returns `Ok` of the drain of that node's byte stream — the bytes up to
the stream's end or its first error item, a stream error being swallowed
rather than propagated; in particular, when the stream yields only `Ok`
items, the result is exactly those bytes. -/
theorem read_file_first_file_match_drained :
    (∀ (pre rest : List Node) (p : String) (sz : Nat) (stream : List ByteItem),
      (∀ n ∈ pre, n.fullpath = p → n.inner.isFile = false) →
      read_file (FilesystemReader.mk (pre ++ Node.mk p (InnerNode.file sz stream) :: rest)) p
        = Except.ok (drainBytes stream)) ∧
    (∀ bytes : List Nat, drainBytes (bytes.map ByteItem.ok) = bytes) := by
  constructor
  · intro pre
    induction pre with
    | nil =>
      intro rest p sz stream _h
      simp [read_file, read_file_loop]
    | cons n ns ih =>
      intro rest p sz stream hpre
      have hns : ∀ m ∈ ns, m.fullpath = p → m.inner.isFile = false :=
        fun m hm => hpre m (List.mem_cons_of_mem _ hm)
      show read_file_loop (n :: (ns ++ _ :: rest)) p = _
      rw [read_file_loop]
      by_cases hfp : n.fullpath = p
      · have hnotfile := hpre n (List.mem_cons_self _ _) hfp
        rw [if_pos hfp]
        cases hinner : n.inner with
        | file sz2 st2 =>
          rw [hinner] at hnotfile
          simp [InnerNode.isFile] at hnotfile
        | dir => exact ih rest p sz stream hns
        | symlink l => exact ih rest p sz stream hns
        | other => exact ih rest p sz stream hns
      · rw [if_neg hfp]
        exact ih rest p sz stream hns
  · intro bytes
    induction bytes with
    | nil => rfl
    | cons b bs ih => simp [drainBytes, ih]

/-- Witness for C3 amended: a file `/a` whose stream yields `Ok 7, Ok 8`
reads back as `Ok [7, 8]`. -/
theorem read_file_first_file_match_drained_witness :
    (∀ n ∈ ([] : List Node), n.fullpath = "/a" → n.inner.isFile = false) ∧
    read_file (FilesystemReader.mk
        [Node.mk "/a" (InnerNode.file 2 [ByteItem.ok 7, ByteItem.ok 8])]) "/a"
      = Except.ok [7, 8] := by
  refine ⟨by decide, ?_⟩
  exact read_file_first_file_match_drained.1 [] [] "/a" 2
    [ByteItem.ok 7, ByteItem.ok 8] (by decide)

/-- C4 counterexample: the spec says a symlink target stored relative to
its containing directory is normalized against that directory, so a link
target `b` inside `/dir` should project to `/dir/b`.  The code builds the
payload as `format!("/{}", link)`: the node `/dir/a` with stored link `b`
projects to `Symlink "/b"`, not `Symlink "/dir/b"`. -/
theorem entries_symlink_target_not_normalized :
    entries (FilesystemReader.mk [Node.mk "/dir/a" (InnerNode.symlink "b")])
      = [SquashFSEntry.mk "/dir/a" 0 (EntryKind.symlink "/b")] ∧
    EntryKind.symlink "/b" ≠ EntryKind.symlink "/dir/b" := by
  exact ⟨rfl, by decide⟩

/-- C4 amended: for every symlink node, `entries` yields an entry whose
payload is `/` prepended verbatim to the stored link target — the target
is rooted at `/` without being resolved against the symlink's containing
directory. -/
theorem entries_symlink_target_slash_prepended :
    ∀ (fs : FilesystemReader) (n : Node) (link : String),
      n ∈ fs.files → n.inner = InnerNode.symlink link →
      SquashFSEntry.mk n.fullpath 0 (EntryKind.symlink ("/" ++ link)) ∈ entries fs := by
  intro fs n link hmem hinner
  rw [entries]
  refine List.mem_map.mpr ⟨n, hmem, ?_⟩
  simp [projectNode, hinner]

/-- Witness for C4 amended: the node `/dir/a` with stored link `b`
appears in the catalog as a symlink entry with payload `/b`. -/
theorem entries_symlink_target_slash_prepended_witness :
    Node.mk "/dir/a" (InnerNode.symlink "b")
        ∈ (FilesystemReader.mk [Node.mk "/dir/a" (InnerNode.symlink "b")]).files ∧
    SquashFSEntry.mk "/dir/a" 0 (EntryKind.symlink ("/" ++ "b"))
        ∈ entries (FilesystemReader.mk [Node.mk "/dir/a" (InnerNode.symlink "b")]) := by
  refine ⟨by decide, ?_⟩
  exact entries_symlink_target_slash_prepended
    (FilesystemReader.mk [Node.mk "/dir/a" (InnerNode.symlink "b")])
    (Node.mk "/dir/a" (InnerNode.symlink "b")) "b" (by decide) rfl

/-- C5: whenever the chain walk attempts to insert a path already present
in the per-call visited set, resolution fails with the cyclic-symlink
error; in particular, for a two-node cycle — entry `a` targets `b`'s path
and the looked-up entry `b` targets `a`'s path — `resolve_symlink` on `a`
fails with that error. -/
theorem resolve_symlink_two_node_cycle :
    (∀ (fs : FilesystemReader) (target : String) (visited : List String),
      target ∈ visited →
      follow_symlink fs target visited
        = Except.error (SquishyError.symlinkError "Cyclic symlink detected")) ∧
    (∀ (fs : FilesystemReader) (a b : SquashFSEntry) (tb : String),
      a.kind = EntryKind.symlink tb →
      tb ≠ a.path →
      (find_entries fs (fun p => p == tb)).head? = some b →
      b.kind = EntryKind.symlink a.path →
      resolve_symlink fs a
        = Except.error (SquishyError.symlinkError "Cyclic symlink detected")) := by
  have hcyc : ∀ (fs : FilesystemReader) (target : String) (visited : List String),
      target ∈ visited →
      follow_symlink fs target visited
        = Except.error (SquishyError.symlinkError "Cyclic symlink detected") := by
    intro fs target visited hmem
    rw [follow_symlink_eq, if_pos hmem]
  refine ⟨hcyc, ?_⟩
  intro fs a b tb hka htb hfind hkb
  obtain ⟨bp, bsz, bk⟩ := b
  have hkb2 : bk = EntryKind.symlink a.path := hkb
  subst hkb2
  unfold resolve_symlink
  rw [hka]
  show follow_symlink fs tb [a.path] = _
  rw [follow_symlink_eq]
  have hnot : tb ∉ [a.path] := by simp [htb]
  rw [if_neg hnot, hfind]
  show follow_symlink fs a.path (tb :: [a.path]) = _
  exact hcyc fs a.path (tb :: [a.path]) (by simp)

/-- Witness for C5: the catalog with `/a` linking to `/b` and `/b`
linking back to `/a` makes `resolve_symlink` on the `/a` entry fail with
the cyclic-symlink error. -/
theorem resolve_symlink_two_node_cycle_witness :
    (SquashFSEntry.mk "/a" 0 (EntryKind.symlink "/b")).kind = EntryKind.symlink "/b" ∧
    ("/b" : String) ≠ "/a" ∧
    (find_entries (FilesystemReader.mk
          [Node.mk "/a" (InnerNode.symlink "b"), Node.mk "/b" (InnerNode.symlink "a")])
        (fun p => p == "/b")).head?
      = some (SquashFSEntry.mk "/b" 0 (EntryKind.symlink "/a")) ∧
    resolve_symlink (FilesystemReader.mk
          [Node.mk "/a" (InnerNode.symlink "b"), Node.mk "/b" (InnerNode.symlink "a")])
        (SquashFSEntry.mk "/a" 0 (EntryKind.symlink "/b"))
      = Except.error (SquishyError.symlinkError "Cyclic symlink detected") := by
  refine ⟨rfl, by decide, rfl, ?_⟩
  exact resolve_symlink_two_node_cycle.2
    (FilesystemReader.mk
      [Node.mk "/a" (InnerNode.symlink "b"), Node.mk "/b" (InnerNode.symlink "a")])
    (SquashFSEntry.mk "/a" 0 (EntryKind.symlink "/b"))
    (SquashFSEntry.mk "/b" 0 (EntryKind.symlink "/a"))
    "/b" rfl (by decide) rfl rfl

/-- C6: the chain walk terminates on every finite catalog: each recursive
step of `follow_symlink` inserts the current target — a path of the
catalog — into the visited set, so the recursion depth is bounded by the
number of catalog paths not yet visited; with any step budget exceeding
that bound, the instrumented walk completes and agrees with
`follow_symlink`. -/
theorem follow_symlink_depth_bounded :
    ∀ (fs : FilesystemReader) (fuel : Nat) (target : String) (visited : List String),
      (pathsFinset fs \ visited.toFinset).card < fuel →
      followSymlinkFuel fs fuel target visited = some (follow_symlink fs target visited) := by
  intro fs fuel
  induction fuel with
  | zero =>
    intro target visited h
    exact absurd h (Nat.not_lt_zero _)
  | succ fuel ih =>
    intro target visited h
    rw [followSymlinkFuel, follow_symlink_eq]
    by_cases hv : target ∈ visited
    · rw [if_pos hv, if_pos hv]
    · rw [if_neg hv, if_neg hv]
      cases hfind : (find_entries fs (fun p => p == target)).head? with
      | none => rfl
      | some e =>
        obtain ⟨ep, esz, ek⟩ := e
        cases ek with
        | symlink next =>
          show followSymlinkFuel fs fuel next (target :: visited)
              = some (follow_symlink fs next (target :: visited))
          apply ih
          have hlt := follow_measure_lt hv hfind
          omega
        | file => rfl
        | directory => rfl
        | unknown => rfl

/-- Witness for C6: on a one-entry catalog, a budget of 2 steps is enough
to finish walking from target `/a` with an empty visited set. -/
theorem follow_symlink_depth_bounded_witness :
    (pathsFinset (FilesystemReader.mk [Node.mk "/a" (InnerNode.symlink "b")])
        \ ([] : List String).toFinset).card < 2 ∧
    followSymlinkFuel (FilesystemReader.mk [Node.mk "/a" (InnerNode.symlink "b")]) 2 "/a" []
      = some (follow_symlink (FilesystemReader.mk [Node.mk "/a" (InnerNode.symlink "b")])
          "/a" []) := by
  refine ⟨by decide, ?_⟩
  exact follow_symlink_depth_bounded
    (FilesystemReader.mk [Node.mk "/a" (InnerNode.symlink "b")]) 2 "/a" [] (by decide)

/-- C7: a dangling link is a valid state, not an error: whenever the
chain walk reaches a target that matches no catalog entry, it returns
`Ok(None)`; in particular `resolve_symlink` on a catalog entry whose
target path matches no entry returns `Ok(None)`. -/
theorem resolve_symlink_dangling_absent :
    (∀ (fs : FilesystemReader) (target : String) (visited : List String),
      target ∉ visited →
      (find_entries fs (fun p => p == target)).head? = none →
      follow_symlink fs target visited = Except.ok none) ∧
    (∀ (fs : FilesystemReader) (entry : SquashFSEntry) (t : String),
      entry ∈ entries fs →
      entry.kind = EntryKind.symlink t →
      (∀ e ∈ entries fs, e.path ≠ t) →
      resolve_symlink fs entry = Except.ok none) := by
  have hgen : ∀ (fs : FilesystemReader) (target : String) (visited : List String),
      target ∉ visited →
      (find_entries fs (fun p => p == target)).head? = none →
      follow_symlink fs target visited = Except.ok none := by
    intro fs target visited hv hfind
    rw [follow_symlink_eq, if_neg hv, hfind]
  refine ⟨hgen, ?_⟩
  intro fs entry t hmem hk hall
  have hfilter : find_entries fs (fun p => p == t) = [] := by
    rw [find_entries]
    refine List.filter_eq_nil_iff.mpr ?_
    intro e he
    simp [hall e he]
  unfold resolve_symlink
  rw [hk]
  show follow_symlink fs t [entry.path] = _
  apply hgen
  · intro hmem2
    exact hall entry hmem (List.mem_singleton.mp hmem2).symm
  · rw [hfilter]
    rfl

/-- Witness for C7: the single symlink `/s` targeting `/x`, which matches
no entry, resolves to the absent result. -/
theorem resolve_symlink_dangling_absent_witness :
    SquashFSEntry.mk "/s" 0 (EntryKind.symlink "/x")
        ∈ entries (FilesystemReader.mk [Node.mk "/s" (InnerNode.symlink "x")]) ∧
    (∀ e ∈ entries (FilesystemReader.mk [Node.mk "/s" (InnerNode.symlink "x")]),
      e.path ≠ "/x") ∧
    resolve_symlink (FilesystemReader.mk [Node.mk "/s" (InnerNode.symlink "x")])
        (SquashFSEntry.mk "/s" 0 (EntryKind.symlink "/x"))
      = Except.ok none := by
  refine ⟨by decide, by decide, ?_⟩
  exact resolve_symlink_dangling_absent.2
    (FilesystemReader.mk [Node.mk "/s" (InnerNode.symlink "x")])
    (SquashFSEntry.mk "/s" 0 (EntryKind.symlink "/x")) "/x"
    (by decide) rfl (by decide)

/-- C8 counterexample: the claim says any I/O failure on the destination
side propagates as an I/O error and a successful `write_file` leaves the
destination byte-identical to `read_file(source)`.  The source never
flushes its `BufWriter`: for contents below the buffer capacity,
`write_all` only fills the in-memory buffer, the disk write happens at
the writer's implicit drop, and a flush error there is ignored — on a
1-byte source with a failing destination disk, `write_file` returns `Ok`
while the destination holds `[]`, not `read_file`'s `[9]`. -/
theorem write_file_swallows_flush_error :
    read_file (FilesystemReader.mk [Node.mk "/a" (InnerNode.file 1 [ByteItem.ok 9])]) "/a"
      = Except.ok [9] ∧
    write_file (FilesystemReader.mk [Node.mk "/a" (InnerNode.file 1 [ByteItem.ok 9])])
        (DestWorld.mk [] [] ["/out"]) "/a" "/out"
      = Except.ok (DestWorld.mk [("/out", [])] [] ["/out"]) ∧
    hostLookup [("/out", ([] : List Nat))] "/out" ≠ some [9] := by
  exact ⟨rfl, rfl, by decide⟩

/-- C8 amended: `write_file(source, dest)` is `read_file(source)`
followed by create/truncate and a buffered write.  A failing create, or a
failing disk write when the contents reach the `BufWriter` capacity and
`write_all` hits the disk, propagates as an I/O error distinct from every
`FileNotFound` value; when no destination operation fails the destination
ends up byte-identical to `read_file(source)`'s result; but for contents
below the buffer capacity the disk write only happens at the writer's
implicit drop, whose flush error is ignored: `write_file` then returns
`Ok` with the destination left as created, without the contents. -/
theorem write_file_buffered_semantics :
    ∀ (fs : FilesystemReader) (w : DestWorld) (source dest : String) (contents : List Nat),
      read_file fs source = Except.ok contents →
      ((dest ∉ w.createFail → dest ∉ w.writeFail →
        ∃ w2, write_file fs w source dest = Except.ok w2 ∧
          hostLookup w2.files dest = some contents) ∧
      (dest ∈ w.createFail →
        write_file fs w source dest = Except.error SquishyError.ioError) ∧
      (dest ∉ w.createFail → dest ∈ w.writeFail → bufWriterCapacity ≤ contents.length →
        write_file fs w source dest = Except.error SquishyError.ioError) ∧
      (dest ∉ w.createFail → dest ∈ w.writeFail → contents.length < bufWriterCapacity →
        ∃ w2, write_file fs w source dest = Except.ok w2 ∧
          hostLookup w2.files dest = some []) ∧
      (∀ p, SquishyError.ioError ≠ SquishyError.fileNotFound p)) := by
  intro fs w source dest contents hread
  refine ⟨?_, ?_, ?_, ?_, fun p h => SquishyError.noConfusion h⟩
  · intro hc hw
    by_cases hcap : bufWriterCapacity ≤ contents.length
    · refine ⟨{ w with files := setHostFile (setHostFile w.files dest []) dest contents },
        ?_, ?_⟩
      · unfold write_file
        rw [hread]
        simp [fileCreate, hc, writeAll, hcap, hw, dropFlush]
      · simp [setHostFile, hostLookup]
    · refine ⟨{ w with files := setHostFile (setHostFile w.files dest []) dest contents },
        ?_, ?_⟩
      · unfold write_file
        rw [hread]
        simp [fileCreate, hc, writeAll, hcap, dropFlush, hw]
      · simp [setHostFile, hostLookup]
  · intro hc
    unfold write_file
    rw [hread]
    simp [fileCreate, hc]
  · intro hc hw hcap
    unfold write_file
    rw [hread]
    simp [fileCreate, hc, writeAll, hcap, hw]
  · intro hc hw hcap
    refine ⟨{ w with files := setHostFile w.files dest [] }, ?_, ?_⟩
    · unfold write_file
      rw [hread]
      simp [fileCreate, hc, writeAll, Nat.not_le.mpr hcap, dropFlush, hw]
    · simp [setHostFile, hostLookup]

/-- Witness for C8 amended: extracting the 2-byte file `/a` to `/out` on
a destination with no failures yields destination contents `[1, 2]`,
byte-identical to `read_file`'s result. -/
theorem write_file_buffered_semantics_witness :
    read_file (FilesystemReader.mk [Node.mk "/a" (InnerNode.file 2 [ByteItem.ok 1, ByteItem.ok 2])])
        "/a" = Except.ok [1, 2] ∧
    ∃ w2,
      write_file (FilesystemReader.mk
          [Node.mk "/a" (InnerNode.file 2 [ByteItem.ok 1, ByteItem.ok 2])])
        (DestWorld.mk [] [] []) "/a" "/out" = Except.ok w2 ∧
      hostLookup w2.files "/out" = some [1, 2] := by
  refine ⟨rfl, ?_⟩
  exact ((write_file_buffered_semantics
    (FilesystemReader.mk [Node.mk "/a" (InnerNode.file 2 [ByteItem.ok 1, ByteItem.ok 2])])
    (DestWorld.mk [] [] []) "/a" "/out" [1, 2] rfl).1 (by decide) (by decide))

end Squishy
